import Mathlib

/-!
Verification of the flag registration and environment-variable resolution
engine (vendor/github.com/werf/common-go/pkg/cli/flag.go).

The Go code is shallowly embedded: the package-level regex cache becomes an
association list threaded through the functions, the process environment and
the Go map iteration orders become explicit list arguments, and the external
collaborators (the regular-expression engine, the command framework flag
store of cobra/pflag) are modelled through their public contracts as the
specification describes them.
-/

deriving instance DecidableEq for Except

/-- A pattern expression as registered for a flag: the raw regular-expression
text and its human-readable description (struct FlagRegexExpr). -/
structure FlagRegexExpr where
  Expr : String
  Human : String
deriving DecidableEq, Repr

/-- A compiled matcher: the observable behavior of a compiled regular
expression is which environment-variable names it matches. -/
def Matcher : Type := String → Bool

/-- The package-level cache definedFlagEnvVarRegexes: a mapping from the full
pattern expression (text and description) to its compiled matcher, modelled
as an association list in which the newest entry shadows older ones (the Go
map assignment overwrites). -/
def RegexCatalog : Type := List (FlagRegexExpr × Matcher)

/-- Look up the matcher stored for a pattern expression (newest entry wins,
matching the Go map read). -/
def catalogFind (cache : RegexCatalog) (e : FlagRegexExpr) : Option Matcher :=
  (List.find? (fun kv => decide (kv.1 = e)) cache).map (fun kv => kv.2)

/-- Store a compiled matcher under a pattern expression; the new entry shadows
any previous one, modelling the Go map assignment. -/
def catalogInsert (cache : RegexCatalog) (e : FlagRegexExpr) (m : Matcher) : RegexCatalog :=
  (e, m) :: cache

/-- The errors the engine returns, mirroring the fmt.Errorf messages of the
source: each constructor carries the data the corresponding message names. -/
inductive ResolveError where
  | getEnvVarNames (msg : String)
  | compileRegex (expr : String) (msg : String)
  | invalidEnvValue (key : String) (val : String) (msg : String)
  | annotWrite (context : String) (msg : String)
deriving DecidableEq, Repr

/-- Result of the pattern-compilation phase at the top of processEnvVars: the
updated package-level cache, the trace of pattern texts that were passed to
the regular-expression compiler (in call order), and the error, if any. -/
structure CompileResult where
  cache : RegexCatalog
  trace : List String
  err : Option ResolveError

/-- The compilation loop at the top of processEnvVars: each pattern text is
handed to the external compiler; a failure aborts with an error naming the
pattern text; a success is stored in the package-level cache, overwriting any
previous entry for the same expression. -/
def compileEnvVarRegexes (compile : String → Except String Matcher) :
    List FlagRegexExpr → RegexCatalog → CompileResult
  | [], cache => ⟨cache, [], none⟩
  | e :: rest, cache =>
    match compile e.Expr with
    | .error msg => ⟨cache, [e.Expr], some (.compileRegex e.Expr msg)⟩
    | .ok m =>
      let r := compileEnvVarRegexes compile rest (catalogInsert cache e m)
      ⟨r.cache, e.Expr :: r.trace, r.err⟩

/-- The matcher the resolution loops read back from the package-level cache
for a pattern expression (the Go code indexes the map directly; a missing
entry cannot occur after a successful compile phase). -/
def matcherFor (cache : RegexCatalog) (e : FlagRegexExpr) : Matcher :=
  (catalogFind cache e).getD (fun _ => false)

/-- Whether an environment key matches any pattern of the list, as the inner
loops of processEnvVars test it via the cached matchers. -/
def matchesAny (cache : RegexCatalog) (exprs : List FlagRegexExpr) (key : String) : Bool :=
  exprs.any (fun e => matcherFor cache e key)

/-- The value held by a flag destination, one constructor per supported
destination kind. -/
inductive FlagValue where
  | b (v : Bool)
  | i (v : Int)
  | str (v : String)
  | dur (v : Int)
  | list (v : List String)
  | map (v : List (String × String))
deriving DecidableEq, Repr

/-- The per-flag state the engine mutates through the command framework: the
bound value, the changed marker, and the usage text. -/
structure FlagState where
  value : FlagValue
  changed : Bool
  usage : String
deriving DecidableEq, Repr

/-- The closed set of destination kinds AddFlag dispatches over. -/
inductive DestKind where
  | boolKind
  | intKind
  | stringKind
  | durationKind
  | stringListKind
  | stringMapKind
deriving DecidableEq, Repr

/-- The scalar kinds (replace-wins merge policy). -/
def DestKind.isScalar : DestKind → Bool
  | .boolKind | .intKind | .stringKind | .durationKind => true
  | .stringListKind | .stringMapKind => false

/-- Modelled from the spec: the external framework parses a boolean flag value
the way the Go standard library does, accepting the usual literal spellings
and rejecting everything else. -/
def parseBool (s : String) : Except String Bool :=
  if ["1", "t", "T", "TRUE", "true", "True"].contains s then .ok true
  else if ["0", "f", "F", "FALSE", "false", "False"].contains s then .ok false
  else .error "invalid syntax"

/-- The natural number denoted by a run of decimal digit characters. -/
def digitsToNat (cs : List Char) : Nat :=
  cs.foldl (fun n c => 10 * n + (c.toNat - 48)) 0

/-- Modelled from the spec: the external framework parses an integer flag
value (an optional minus sign followed by decimal digits), rejecting strings
that are not integer literals. -/
def parseIntValue (s : String) : Except String Int :=
  match s.toList with
  | [] => .error "invalid syntax"
  | '-' :: rest =>
    if !rest.isEmpty && rest.all Char.isDigit then .ok (-(digitsToNat rest : Int))
    else .error "invalid syntax"
  | cs =>
    if cs.all Char.isDigit then .ok (digitsToNat cs : Int)
    else .error "invalid syntax"

/-- Nanoseconds per duration unit, for the modelled duration parser. -/
def durUnitNanos : String → Option Int
  | "ns" => some 1
  | "us" => some 1000
  | "ms" => some 1000000
  | "s" => some 1000000000
  | "m" => some 60000000000
  | "h" => some 3600000000000
  | _ => none

/-- Modelled from the spec: the external framework parses a duration flag
value; this model accepts a digit run followed by a unit (so that a value
such as abc fails while 5s succeeds), returning nanoseconds. -/
def parseDuration (s : String) : Except String Int :=
  let digits := s.toList.takeWhile Char.isDigit
  let rest := s.toList.dropWhile Char.isDigit
  if digits.isEmpty then .error "invalid duration"
  else
    match durUnitNanos (String.mk rest) with
    | some u => .ok ((digitsToNat digits : Int) * u)
    | none => .error "invalid duration"

/-- Modelled from the spec: the set-value operation of the external framework
for a scalar destination kind, returning the parsed value or an error; on
error the destination is untouched (the spec contract: the value either ends
up fully resolved or untouched-plus-error). -/
def scalarParse : DestKind → String → Except String FlagValue
  | .boolKind, s => (parseBool s).map FlagValue.b
  | .intKind, s => (parseIntValue s).map FlagValue.i
  | .stringKind, s => .ok (.str s)
  | .durationKind, s => (parseDuration s).map FlagValue.dur
  | .stringListKind, _ => .error "unsupported"
  | .stringMapKind, _ => .error "unsupported"

/-- Modelled from the spec: the append-value operation of the external
framework for string-list flags appends the raw value as one new entry,
without splitting on commas (the source comment: let the library handle the
parsing later). -/
def listAppend (v : FlagValue) (val : String) : Except String FlagValue :=
  match v with
  | .list xs => .ok (.list (xs ++ [val]))
  | _ => .error "append not supported for this kind"

/-- The key and the value a map candidate string denotes, split at the first
equals sign. -/
def splitKeyValue (val : String) : String × String :=
  (String.mk (val.toList.takeWhile (fun c => c != '=')),
   String.mk ((val.toList.dropWhile (fun c => c != '=')).drop 1))

/-- Insert the binding a map candidate string denotes, shadowing any previous
binding for the same key. -/
def mapInsert (entries : List (String × String)) (val : String) : List (String × String) :=
  ((splitKeyValue val).1, (splitKeyValue val).2) ::
    entries.filter (fun e => e.1 != (splitKeyValue val).1)

/-- Modelled from the spec: the set-value operation of the external framework
for string-map flags parses the value as key=value (split at the first
equals sign) and inserts the binding, shadowing any previous binding for the
same key; a value without an equals sign fails to parse and the destination
is untouched. -/
def mapSetValue (v : FlagValue) (val : String) : Except String FlagValue :=
  match v with
  | .map entries =>
    if val.toList.contains '=' then .ok (.map (mapInsert entries val))
    else .error "must be formatted as key=value"
  | _ => .error "set not supported for this kind"

/-- The scalar branch of processEnvVars: scan the environment map in its
iteration order; on the first key with a non-empty value matching some
pattern, mark the flag changed, then attempt to set the value, returning an
error naming the key and value when parsing fails, and stop. -/
def scalarEnvLoop (cache : RegexCatalog) (exprs : List FlagRegexExpr)
    (parse : String → Except String FlagValue) :
    List (String × String) → FlagState → FlagState × Option ResolveError
  | [], flag => (flag, none)
  | (key, val) :: rest, flag =>
    if val != "" && matchesAny cache exprs key then
      match parse val with
      | .ok v => ({ flag with value := v, changed := true }, none)
      | .error msg => ({ flag with changed := true }, some (.invalidEnvValue key val msg))
    else scalarEnvLoop cache exprs parse rest flag

/-- The first environment entry the scalar loop would apply: the first entry
in iteration order whose value is non-empty and whose key matches some
pattern. -/
def firstEnvMatch (cache : RegexCatalog) (exprs : List FlagRegexExpr) :
    List (String × String) → Option (String × String)
  | [] => none
  | (key, val) :: rest =>
    if val != "" && matchesAny cache exprs key then some (key, val)
    else firstEnvMatch cache exprs rest

/-- The envs candidate map of processEnvVars: the environment entries with a
non-empty value whose key matches some pattern (the environment map has
distinct keys, so the collected map is this filter). -/
def envCandidates (cache : RegexCatalog) (exprs : List FlagRegexExpr)
    (envir : List (String × String)) : List (String × String) :=
  envir.filter (fun kv => kv.2 != "" && matchesAny cache exprs kv.1)

/-- The string-list branch of processEnvVars: for every candidate, mark the
flag changed and append the value, aborting with an error naming the key and
value when an append fails. -/
def listEnvLoop : List (String × String) → FlagState → FlagState × Option ResolveError
  | [], flag => (flag, none)
  | (key, val) :: rest, flag =>
    let flag1 := { flag with changed := true }
    match listAppend flag1.value val with
    | .ok v => listEnvLoop rest { flag1 with value := v }
    | .error msg => (flag1, some (.invalidEnvValue key val msg))

/-- The string-map branch of processEnvVars: for every candidate, mark the
flag changed and set the value, aborting with an error naming the key and
value when parsing fails. -/
def mapEnvLoop : List (String × String) → FlagState → FlagState × Option ResolveError
  | [], flag => (flag, none)
  | (key, val) :: rest, flag =>
    let flag1 := { flag with changed := true }
    match mapSetValue flag1.value val with
    | .ok v => mapEnvLoop rest { flag1 with value := v }
    | .error msg => (flag1, some (.invalidEnvValue key val msg))

/-- Result of processEnvVars: the updated package-level cache, the trace of
compile calls, the flag state after resolution, and the error, if any. -/
structure EnvResult where
  cache : RegexCatalog
  trace : List String
  flag : FlagState
  err : Option ResolveError

/-- processEnvVars from the source: compile and cache every pattern (an error
aborts, naming the pattern), reverse the pattern list, then dispatch on the
destination kind. Scalar kinds scan the environment map in its iteration
order (envirIter) and apply the first matching non-empty value; list and map
kinds apply every matching candidate in the iteration order of the collected
candidate map, modelled by the reorder argument applied to the candidate
filter. -/
def processEnvVars (compile : String → Except String Matcher) (kind : DestKind)
    (exprs : List FlagRegexExpr) (cache : RegexCatalog)
    (envirIter : List (String × String))
    (reorder : List (String × String) → List (String × String))
    (flag : FlagState) : EnvResult :=
  let cr := compileEnvVarRegexes compile exprs cache
  match cr.err with
  | some e => ⟨cr.cache, cr.trace, flag, some e⟩
  | none =>
    let exprs2 := exprs.reverse
    match kind with
    | .boolKind | .intKind | .stringKind | .durationKind =>
      let r := scalarEnvLoop cr.cache exprs2 (scalarParse kind) envirIter flag
      ⟨cr.cache, cr.trace, r.1, r.2⟩
    | .stringListKind =>
      let r := listEnvLoop (reorder (envCandidates cr.cache exprs2 envirIter)) flag
      ⟨cr.cache, cr.trace, r.1, r.2⟩
    | .stringMapKind =>
      let r := mapEnvLoop (reorder (envCandidates cr.cache exprs2 envirIter)) flag
      ⟨cr.cache, cr.trace, r.1, r.2⟩

/-- The candidate set a collection-kind resolution applies, before the
candidate map imposes its own iteration order: the environment entries with a
non-empty value whose key matches one of the compiled patterns. -/
def resolvedCandidates (compile : String → Except String Matcher)
    (exprs : List FlagRegexExpr) (cache : RegexCatalog)
    (envirIter : List (String × String)) : List (String × String) :=
  envCandidates (compileEnvVarRegexes compile exprs cache).cache exprs.reverse envirIter

/-- The environment entry a scalar-kind resolution applies: the first entry
of the environment map iteration whose value is non-empty and whose key
matches one of the compiled patterns. -/
def winningEnvMatch (compile : String → Except String Matcher)
    (exprs : List FlagRegexExpr) (cache : RegexCatalog)
    (envirIter : List (String × String)) : Option (String × String) :=
  firstEnvMatch (compileEnvVarRegexes compile exprs cache).cache exprs.reverse envirIter

/-- buildHelp from the source: append a terminating period when the help text
does not already end with one, then append nothing, a single Var label, or a
comma-joined Vars label, depending on the number of patterns. The source
returns a never-failing (string, error) pair; the embedding is the pure
function. -/
def buildHelp (help : String) (envVarRegexes : List FlagRegexExpr) : String :=
  let help2 := if help.endsWith "." then help else help ++ "."
  match envVarRegexes with
  | [] => help2
  | [e] => help2 ++ " Var: " ++ e.Human
  | es => help2 ++ " Vars: " ++ String.intercalate ", " (es.map FlagRegexExpr.Human)

/-- The help-composition contract in the words of the specification: ensure
the base help ends with terminal punctuation, then append zero patterns, one
pattern under a Var label, or the comma-joined human-readable descriptions
under a Vars label. -/
def composeHelpSpec (baseHelp : String) (patterns : List FlagRegexExpr) : String :=
  let ensured := if baseHelp.endsWith "." then baseHelp else baseHelp ++ "."
  if patterns.isEmpty then ensured
  else if patterns.length == 1 then
    ensured ++ " Var: " ++ String.intercalate ", " (patterns.map FlagRegexExpr.Human)
  else
    ensured ++ " Vars: " ++ String.intercalate ", " (patterns.map FlagRegexExpr.Human)

/-- A flag group as attached to a flag: id, title and priority. -/
structure FlagGroup where
  ID : String
  Title : String
  Priority : Int
deriving DecidableEq, Repr

/-- Modelled from the spec: the literal annotation key for the group id (the
constant is declared outside the given sources). -/
def FlagGroupIDAnnotationName : String := "flag-group-id"

/-- Modelled from the spec: the literal annotation key for the group title
(the constant is declared outside the given sources). -/
def FlagGroupTitleAnnotationName : String := "flag-group-title"

/-- Modelled from the spec: the literal annotation key for the group priority
(the constant is declared outside the given sources). -/
def FlagGroupPriorityAnnotationName : String := "flag-group-priority"

/-- The observable state of the command owned by the external framework, as
this engine mutates it: the registered flags by name, the visibility and
path-kind marks, and the flag-level annotations written so far. -/
structure CmdState where
  flags : List (String × FlagState)
  hiddenFlags : List String
  deprecatedFlags : List String
  requiredFlags : List String
  dirFlags : List String
  fileFlags : List String
  annots : List (String × String × List String)
deriving DecidableEq, Repr

/-- Look up a registered flag by name (the framework get-by-name call). -/
def CmdState.flagLookup (cmd : CmdState) (name : String) : Option FlagState :=
  (List.find? (fun kv => kv.1 == name) cmd.flags).map (fun kv => kv.2)

/-- Replace the stored state of the named flag (the effect of the mutations
processEnvVars performs through the framework flag handle). -/
def CmdState.setFlag (cmd : CmdState) (name : String) (f : FlagState) : CmdState :=
  { cmd with flags := cmd.flags.map (fun kv => if kv.1 == name then (kv.1, f) else kv) }

/-- Modelled from the spec: the framework set-annotation call stores the
values under the key as a flag-level annotation and fails exactly when no
flag with the given name exists. -/
def setAnnotationValues (cmd : CmdState) (flagName key : String) (values : List String) :
    Except String CmdState :=
  match cmd.flagLookup flagName with
  | some _ => .ok { cmd with annots := cmd.annots ++ [(flagName, key, values)] }
  | none => .error "no such flag"

/-- saveFlagGroupMetadata from the source: store the group id, title and
priority as three flag-level annotations, propagating the first failing
annotation write. -/
def saveFlagGroupMetadata (cmd : CmdState) (flagName : String) (group : FlagGroup) :
    CmdState × Option ResolveError :=
  match setAnnotationValues cmd flagName FlagGroupIDAnnotationName [group.ID] with
  | .error msg => (cmd, some (.annotWrite "set group id annotation" msg))
  | .ok cmd1 =>
    match setAnnotationValues cmd1 flagName FlagGroupTitleAnnotationName [group.Title] with
    | .error msg => (cmd1, some (.annotWrite "set group title annotation" msg))
    | .ok cmd2 =>
      match setAnnotationValues cmd2 flagName FlagGroupPriorityAnnotationName
          [toString group.Priority] with
      | .error msg => (cmd2, some (.annotWrite "set group priority annotation" msg))
      | .ok cmd3 => (cmd3, none)

/-- The path-kind hint of AddFlagOptions (the empty Go value becomes none). -/
inductive FlagType where
  | dirType
  | fileType
deriving DecidableEq, Repr

/-- The per-flag registration options (struct AddFlagOptions); the pattern
provider is passed to AddFlag as the already-evaluated result of calling it,
since only its output is consumed there. -/
structure AddFlagOptions where
  Group : Option FlagGroup := none
  PathType : Option FlagType := none
  ShortName : String := ""
  Deprecated : Bool := false
  Hidden : Bool := false
  Required : Bool := false
deriving Repr

/-- The hidden, deprecated and required marks AddFlag applies right after
registering the flag (each framework mark call succeeds here because the flag
was just registered under that name). -/
def applyVisibilityMarks (opts : AddFlagOptions) (cmd : CmdState) (name : String) : CmdState :=
  let cmd1 := if opts.Hidden then { cmd with hiddenFlags := cmd.hiddenFlags ++ [name] } else cmd
  let cmd2 :=
    if opts.Deprecated then { cmd1 with deprecatedFlags := cmd1.deprecatedFlags ++ [name] }
    else cmd1
  if opts.Required then { cmd2 with requiredFlags := cmd2.requiredFlags ++ [name] } else cmd2

/-- Result of AddFlag: the command state, the package-level cache, and the
error, if any. -/
structure AddResult where
  cmd : CmdState
  cache : RegexCatalog
  err : Option ResolveError

/-- AddFlag from the source, in call order: obtain the pattern list from the
provider, build the final help text, register the flag with the external
framework at its default value, apply the hidden, deprecated and required
marks, resolve environment variables (processEnvVars, which is where pattern
compilation happens), then apply the path-kind mark and the optional group
metadata. An error is returned to the caller, but nothing done before the
failing step is undone. -/
def AddFlag (compile : String → Except String Matcher) (kind : DestKind)
    (cmd : CmdState) (cache : RegexCatalog) (name : String)
    (defaultValue : FlagValue) (help : String) (opts : AddFlagOptions)
    (getEnvVarRegexes : Except String (List FlagRegexExpr))
    (envirIter : List (String × String))
    (reorder : List (String × String) → List (String × String)) : AddResult :=
  match getEnvVarRegexes with
  | .error msg => ⟨cmd, cache, some (.getEnvVarNames msg)⟩
  | .ok exprs =>
    let help2 := buildHelp help exprs
    let flag0 : FlagState := ⟨defaultValue, false, help2⟩
    let cmd := { cmd with flags := cmd.flags ++ [(name, flag0)] }
    let cmd := applyVisibilityMarks opts cmd name
    let res := processEnvVars compile kind exprs cache envirIter reorder flag0
    let cmd := cmd.setFlag name res.flag
    match res.err with
    | some e => ⟨cmd, res.cache, some e⟩
    | none =>
      let cmd :=
        match opts.PathType with
        | some .dirType => { cmd with dirFlags := cmd.dirFlags ++ [name] }
        | some .fileType => { cmd with fileFlags := cmd.fileFlags ++ [name] }
        | none => cmd
      match opts.Group with
      | none => ⟨cmd, res.cache, none⟩
      | some g =>
        match saveFlagGroupMetadata cmd name g with
        | (cmd2, some e) => ⟨cmd2, res.cache, some e⟩
        | (cmd2, none) => ⟨cmd2, res.cache, none⟩

/-- Modelled from the spec: a concrete stand-in for the external
regular-expression engine, used to instantiate the theorems at concrete
inputs. A pattern containing an opening parenthesis is malformed and fails to
compile with a message naming the problem; any other pattern compiles to the
matcher accepting exactly the keys equal to the pattern text, as an anchored
literal pattern would. -/
def modelCompile (pat : String) : Except String Matcher :=
  if pat.toList.contains '(' then .error "missing closing )"
  else .ok (fun key => key == pat)

/-!
Helper lemmas about the embedded operations.
-/

/-- Looking up a key other than the one just inserted reads through the new
entry. -/
theorem catalogFind_insert_ne (cache : RegexCatalog) (x e : FlagRegexExpr) (m : Matcher)
    (h : e ≠ x) : catalogFind (catalogInsert cache x m) e = catalogFind cache e := by
  unfold catalogFind catalogInsert
  rw [List.find?_cons_of_neg]
  simp [h.symm]

/-- Looking up the key just inserted returns the new matcher. -/
theorem catalogFind_insert_self (cache : RegexCatalog) (x : FlagRegexExpr) (m : Matcher) :
    catalogFind (catalogInsert cache x m) x = some m := by
  unfold catalogFind catalogInsert
  rw [List.find?_cons_of_pos]
  · rfl
  · simp

/-- The error and the compile trace of the compilation phase do not depend on
the cache contents: compilation is a pure function of the pattern texts. -/
theorem compileEnvVarRegexes_err_trace_indep (compile : String → Except String Matcher)
    (exprs : List FlagRegexExpr) (c1 c2 : RegexCatalog) :
    (compileEnvVarRegexes compile exprs c1).err = (compileEnvVarRegexes compile exprs c2).err ∧
    (compileEnvVarRegexes compile exprs c1).trace =
      (compileEnvVarRegexes compile exprs c2).trace := by
  induction exprs generalizing c1 c2 with
  | nil => exact ⟨rfl, rfl⟩
  | cons e rest ih =>
    cases hce : compile e.Expr with
    | error msg => simp [compileEnvVarRegexes, hce]
    | ok m =>
      have h := ih (catalogInsert c1 e m) (catalogInsert c2 e m)
      simp [compileEnvVarRegexes, hce, h.1, h.2]

/-- The compilation phase touches only the entries of the patterns in its
list: any other key reads the same as before. -/
theorem compileEnvVarRegexes_find_preserved (compile : String → Except String Matcher)
    (exprs : List FlagRegexExpr) (cache : RegexCatalog) (e : FlagRegexExpr)
    (he : e ∉ exprs) :
    catalogFind (compileEnvVarRegexes compile exprs cache).cache e = catalogFind cache e := by
  induction exprs generalizing cache with
  | nil => rfl
  | cons x rest ih =>
    have hne : e ≠ x := fun h => he (h ▸ List.mem_cons_self x rest)
    have he2 : e ∉ rest := fun h => he (List.mem_cons_of_mem _ h)
    cases hcx : compile x.Expr with
    | error msg => simp [compileEnvVarRegexes, hcx]
    | ok m =>
      simp only [compileEnvVarRegexes, hcx]
      rw [ih (catalogInsert cache x m) he2]
      exact catalogFind_insert_ne cache x e m hne

/-- After a successful compilation phase, every pattern of the list is bound
in the cache to the matcher its text compiles to. -/
theorem compileEnvVarRegexes_find (compile : String → Except String Matcher)
    (exprs : List FlagRegexExpr) (cache : RegexCatalog)
    (hc : (compileEnvVarRegexes compile exprs cache).err = none) :
    ∀ e ∈ exprs, ∃ m, compile e.Expr = .ok m ∧
      catalogFind (compileEnvVarRegexes compile exprs cache).cache e = some m := by
  induction exprs generalizing cache with
  | nil => intro e he; cases he
  | cons x rest ih =>
    intro e he
    cases hcx : compile x.Expr with
    | error msg => simp [compileEnvVarRegexes, hcx] at hc
    | ok m =>
      have hc2 : (compileEnvVarRegexes compile rest (catalogInsert cache x m)).err = none := by
        simpa [compileEnvVarRegexes, hcx] using hc
      rcases List.mem_cons.mp he with rfl | hmem
      · by_cases hx : e ∈ rest
        · have h := ih (catalogInsert cache e m) hc2 e hx
          simpa [compileEnvVarRegexes, hcx] using h
        · refine ⟨m, hcx, ?_⟩
          simp only [compileEnvVarRegexes, hcx]
          rw [compileEnvVarRegexes_find_preserved compile rest (catalogInsert cache e m) e hx]
          exact catalogFind_insert_self cache e m
      · have h := ih (catalogInsert cache x m) hc2 e hmem
        simpa [compileEnvVarRegexes, hcx] using h

/-- Reversing the pattern list does not change whether a key matches some
pattern. -/
theorem matchesAny_reverse (cache : RegexCatalog) (exprs : List FlagRegexExpr) (key : String) :
    matchesAny cache exprs.reverse key = matchesAny cache exprs key := by
  unfold matchesAny
  exact List.any_reverse

/-- The scalar resolution loop, characterized by the first matching entry of
the iteration: no match leaves the flag untouched with no error; a match
marks the flag changed and then either stores the parsed value or reports the
invalid value, naming key and value. -/
theorem scalarEnvLoop_eq (cache : RegexCatalog) (exprs : List FlagRegexExpr)
    (parse : String → Except String FlagValue) (iter : List (String × String))
    (flag : FlagState) :
    scalarEnvLoop cache exprs parse iter flag =
      match firstEnvMatch cache exprs iter with
      | none => (flag, none)
      | some (key, val) =>
        match parse val with
        | .ok v => ({ flag with value := v, changed := true }, none)
        | .error msg =>
          ({ flag with changed := true }, some (.invalidEnvValue key val msg)) := by
  induction iter with
  | nil => rfl
  | cons kv rest ih =>
    obtain ⟨key, val⟩ := kv
    by_cases h : (val != "" && matchesAny cache exprs key) = true
    · simp [scalarEnvLoop, firstEnvMatch, h]
    · simp only [scalarEnvLoop, firstEnvMatch, h, if_neg, Bool.false_eq_true,
        not_false_eq_true, if_false]
      exact ih

/-- When no entry of the iteration has a non-empty value with a matching key,
there is no first match. -/
theorem firstEnvMatch_eq_none (cache : RegexCatalog) (exprs : List FlagRegexExpr)
    (iter : List (String × String))
    (h : ∀ kv ∈ iter, kv.2 ≠ "" → matchesAny cache exprs kv.1 = false) :
    firstEnvMatch cache exprs iter = none := by
  induction iter with
  | nil => rfl
  | cons kv rest ih =>
    obtain ⟨key, val⟩ := kv
    have hcond : (val != "" && matchesAny cache exprs key) = false := by
      by_cases hv : val = ""
      · simp [hv]
      · simp [h (key, val) (List.mem_cons_self _ _) hv]
    unfold firstEnvMatch
    rw [if_neg (by simp [hcond])]
    exact ih (fun kv hkv hne => h kv (List.mem_cons_of_mem _ hkv) hne)

/-- The list resolution loop on a string-list value: every candidate value is
appended in iteration order, the changed marker is set as soon as there is at
least one candidate, and no error occurs. -/
theorem listEnvLoop_ok (cands : List (String × String)) (xs : List String) (ch : Bool)
    (us : String) :
    listEnvLoop cands ⟨.list xs, ch, us⟩ =
      (⟨.list (xs ++ cands.map Prod.snd), ch || !cands.isEmpty, us⟩, none) := by
  induction cands generalizing xs ch with
  | nil => simp [listEnvLoop]
  | cons kv rest ih =>
    obtain ⟨key, val⟩ := kv
    simp [listEnvLoop, listAppend, ih (xs ++ [val]) true]

/-- On a successful compile phase, processEnvVars for a scalar kind is the
scalar loop run over the environment iteration with the freshly updated
cache. -/
theorem processEnvVars_scalar (compile : String → Except String Matcher) (kind : DestKind)
    (exprs : List FlagRegexExpr) (cache : RegexCatalog)
    (envirIter : List (String × String))
    (reorder : List (String × String) → List (String × String)) (flag : FlagState)
    (hk : kind.isScalar = true)
    (hc : (compileEnvVarRegexes compile exprs cache).err = none) :
    processEnvVars compile kind exprs cache envirIter reorder flag =
      ⟨(compileEnvVarRegexes compile exprs cache).cache,
       (compileEnvVarRegexes compile exprs cache).trace,
       (scalarEnvLoop (compileEnvVarRegexes compile exprs cache).cache exprs.reverse
          (scalarParse kind) envirIter flag).1,
       (scalarEnvLoop (compileEnvVarRegexes compile exprs cache).cache exprs.reverse
          (scalarParse kind) envirIter flag).2⟩ := by
  cases kind
  case stringListKind => simp [DestKind.isScalar] at hk
  case stringMapKind => simp [DestKind.isScalar] at hk
  all_goals simp [processEnvVars, hc]

/-- On a successful compile phase, processEnvVars for the string-list kind is
the list loop run over the reordered candidate set. -/
theorem processEnvVars_list (compile : String → Except String Matcher)
    (exprs : List FlagRegexExpr) (cache : RegexCatalog)
    (envirIter : List (String × String))
    (reorder : List (String × String) → List (String × String)) (flag : FlagState)
    (hc : (compileEnvVarRegexes compile exprs cache).err = none) :
    processEnvVars compile DestKind.stringListKind exprs cache envirIter reorder flag =
      ⟨(compileEnvVarRegexes compile exprs cache).cache,
       (compileEnvVarRegexes compile exprs cache).trace,
       (listEnvLoop (reorder (resolvedCandidates compile exprs cache envirIter)) flag).1,
       (listEnvLoop (reorder (resolvedCandidates compile exprs cache envirIter)) flag).2⟩ := by
  simp [processEnvVars, hc, resolvedCandidates]

/-- When the compile phase fails, processEnvVars reports its error and leaves
the flag untouched. -/
theorem processEnvVars_compile_error (compile : String → Except String Matcher)
    (kind : DestKind) (exprs : List FlagRegexExpr) (cache : RegexCatalog)
    (envirIter : List (String × String))
    (reorder : List (String × String) → List (String × String)) (flag : FlagState)
    (e : ResolveError)
    (hc : (compileEnvVarRegexes compile exprs cache).err = some e) :
    processEnvVars compile kind exprs cache envirIter reorder flag =
      ⟨(compileEnvVarRegexes compile exprs cache).cache,
       (compileEnvVarRegexes compile exprs cache).trace, flag, some e⟩ := by
  simp [processEnvVars, hc]

/-- The visibility marks touch neither the registered flags nor the
annotations. -/
theorem applyVisibilityMarks_flags (opts : AddFlagOptions) (cmd : CmdState) (name : String) :
    (applyVisibilityMarks opts cmd name).flags = cmd.flags := by
  unfold applyVisibilityMarks
  split_ifs <;> rfl

/-- List-level form: replacing the state stored under a name in a list that
gains that name only by the final append, then looking the name up, yields
the replacement. -/
theorem find_map_setEntry (l : List (String × FlagState)) (name : String) (f g : FlagState)
    (hall : ∀ kv ∈ l, ((kv.1 == name) = false)) :
    List.find? (fun kv => kv.1 == name)
      ((l ++ [(name, f)]).map (fun kv => if kv.1 == name then (kv.1, g) else kv)) =
      some (name, g) := by
  induction l with
  | nil => simp [List.find?]
  | cons kv rest ih =>
    have h1 := hall kv (List.mem_cons_self _ _)
    simp only [List.cons_append, List.map_cons, h1, if_false, Bool.false_eq_true]
    rw [List.find?_cons_of_neg _ (by simp [h1])]
    exact ih (fun x hx => hall x (List.mem_cons_of_mem _ hx))

/-- Looking up a freshly appended flag after replacing its stored state finds
the replacement, provided the name was not registered before. -/
theorem flagLookup_setFlag_appended (cmd : CmdState) (name : String) (f g : FlagState)
    (hnew : cmd.flagLookup name = none) :
    (CmdState.setFlag { cmd with flags := cmd.flags ++ [(name, f)] } name g).flagLookup name =
      some g := by
  have hall : ∀ kv ∈ cmd.flags, ((kv.1 == name) = false) := by
    intro kv hkv
    have hfind : List.find? (fun kv => kv.1 == name) cmd.flags = none := by
      unfold CmdState.flagLookup at hnew
      cases hf : List.find? (fun kv => kv.1 == name) cmd.flags with
      | none => rfl
      | some v => rw [hf] at hnew; cases hnew
    have := List.find?_eq_none.mp hfind kv hkv
    simpa using this
  unfold CmdState.setFlag CmdState.flagLookup
  rw [find_map_setEntry cmd.flags name f g hall]
  rfl

/-!
The claims.
-/

/-- C8: help composition is a pure total function: for every base help string
and pattern list, buildHelp first ensures the base help ends with terminal
punctuation (a period), then appends nothing for an empty pattern list, the
single human-readable description under a Var label for one pattern, and the
comma-joined human-readable descriptions under a Vars label for several
patterns — exactly the composition contract stated by the specification,
here written independently as composeHelpSpec. -/
theorem c8_buildHelp_matches_compose_contract (help : String)
    (patterns : List FlagRegexExpr) :
    buildHelp help patterns = composeHelpSpec help patterns := by
  cases patterns with
  | nil => rfl
  | cons e rest =>
    cases rest with
    | nil => rfl
    | cons f rest2 => rfl

/-- C4: for a scalar-kind flag whose patterns all compile, when no
environment entry with a non-empty value has a key matching any pattern of
the flag, environment resolution returns without error and leaves the flag
state untouched: the value stays at the declared default and the changed
marker stays unset. -/
theorem c4_no_match_leaves_default (compile : String → Except String Matcher)
    (kind : DestKind) (exprs : List FlagRegexExpr) (cache : RegexCatalog)
    (envirIter : List (String × String))
    (reorder : List (String × String) → List (String × String)) (flag : FlagState)
    (hk : kind.isScalar = true)
    (hc : (compileEnvVarRegexes compile exprs cache).err = none)
    (hm : ∀ kv ∈ envirIter, kv.2 ≠ "" →
      matchesAny (compileEnvVarRegexes compile exprs cache).cache exprs kv.1 = false) :
    (processEnvVars compile kind exprs cache envirIter reorder flag).flag = flag ∧
    (processEnvVars compile kind exprs cache envirIter reorder flag).err = none := by
  have hm2 : ∀ kv ∈ envirIter, kv.2 ≠ "" →
      matchesAny (compileEnvVarRegexes compile exprs cache).cache exprs.reverse kv.1
        = false := by
    intro kv hkv hne
    rw [matchesAny_reverse]
    exact hm kv hkv hne
  have hfm := firstEnvMatch_eq_none (compileEnvVarRegexes compile exprs cache).cache
    exprs.reverse envirIter hm2
  rw [processEnvVars_scalar compile kind exprs cache envirIter reorder flag hk hc]
  simp only [scalarEnvLoop_eq, hfm]
  refine ⟨?_, ?_⟩ <;> trivial

/-- Witness for C4 at a concrete input: a string flag with one pattern, an
environment whose only matching-named key has an empty value and whose other
key does not match; resolution returns no error and leaves default and
changed marker alone. -/
theorem c4_no_match_leaves_default_witness :
    (DestKind.stringKind.isScalar = true ∧
     (compileEnvVarRegexes modelCompile [⟨"NELM_X", "$NELM_X"⟩] []).err = none ∧
     (∀ kv ∈ [("OTHER", "v"), ("NELM_X", "")], kv.2 ≠ "" →
       matchesAny (compileEnvVarRegexes modelCompile [⟨"NELM_X", "$NELM_X"⟩] []).cache
         [⟨"NELM_X", "$NELM_X"⟩] kv.1 = false)) ∧
    ((processEnvVars modelCompile DestKind.stringKind [⟨"NELM_X", "$NELM_X"⟩] []
        [("OTHER", "v"), ("NELM_X", "")] id ⟨FlagValue.str "dflt", false, "u"⟩).flag =
      ⟨FlagValue.str "dflt", false, "u"⟩ ∧
     (processEnvVars modelCompile DestKind.stringKind [⟨"NELM_X", "$NELM_X"⟩] []
        [("OTHER", "v"), ("NELM_X", "")] id ⟨FlagValue.str "dflt", false, "u"⟩).err = none) :=
  ⟨⟨by decide, by decide, by decide⟩,
   c4_no_match_leaves_default modelCompile DestKind.stringKind [⟨"NELM_X", "$NELM_X"⟩] []
     [("OTHER", "v"), ("NELM_X", "")] id ⟨FlagValue.str "dflt", false, "u"⟩
     (by decide) (by decide) (by decide)⟩

/-- C5: for a scalar-kind flag whose winning matching environment value fails
to parse into the destination kind, environment resolution fails with an
error naming the offending key and value, and the flag value remains at the
declared default. -/
theorem c5_invalid_scalar_value_reported_default_kept
    (compile : String → Except String Matcher) (kind : DestKind)
    (exprs : List FlagRegexExpr) (cache : RegexCatalog)
    (envirIter : List (String × String))
    (reorder : List (String × String) → List (String × String)) (flag : FlagState)
    (key val msg : String)
    (hk : kind.isScalar = true)
    (hc : (compileEnvVarRegexes compile exprs cache).err = none)
    (hw : winningEnvMatch compile exprs cache envirIter = some (key, val))
    (hp : scalarParse kind val = .error msg) :
    (processEnvVars compile kind exprs cache envirIter reorder flag).err =
      some (.invalidEnvValue key val msg) ∧
    (processEnvVars compile kind exprs cache envirIter reorder flag).flag.value =
      flag.value := by
  rw [processEnvVars_scalar compile kind exprs cache envirIter reorder flag hk hc]
  unfold winningEnvMatch at hw
  simp only [scalarEnvLoop_eq, hw, hp]
  refine ⟨?_, ?_⟩ <;> trivial

/-- Witness for C5 at a concrete input: a duration flag whose only matching
environment value abc cannot be parsed; resolution reports the key and value
and the flag value stays at the default. -/
theorem c5_invalid_scalar_value_reported_default_kept_witness :
    (DestKind.durationKind.isScalar = true ∧
     (compileEnvVarRegexes modelCompile [⟨"NELM_T", "$NELM_T"⟩] []).err = none ∧
     winningEnvMatch modelCompile [⟨"NELM_T", "$NELM_T"⟩] [] [("NELM_T", "abc")] =
       some ("NELM_T", "abc") ∧
     scalarParse DestKind.durationKind "abc" = .error "invalid duration") ∧
    ((processEnvVars modelCompile DestKind.durationKind [⟨"NELM_T", "$NELM_T"⟩] []
        [("NELM_T", "abc")] id ⟨FlagValue.dur 7, false, "u"⟩).err =
      some (.invalidEnvValue "NELM_T" "abc" "invalid duration") ∧
     (processEnvVars modelCompile DestKind.durationKind [⟨"NELM_T", "$NELM_T"⟩] []
        [("NELM_T", "abc")] id ⟨FlagValue.dur 7, false, "u"⟩).flag.value =
      FlagValue.dur 7) :=
  ⟨⟨by decide, by decide, by decide, by decide⟩,
   c5_invalid_scalar_value_reported_default_kept modelCompile DestKind.durationKind
     [⟨"NELM_T", "$NELM_T"⟩] [] [("NELM_T", "abc")] id ⟨FlagValue.dur 7, false, "u"⟩
     "NELM_T" "abc" "invalid duration" (by decide) (by decide) (by decide) (by decide)⟩

/-- C10: when the winning matching environment value of a scalar-kind flag
fails to parse, the changed marker has already been set before the set-value
attempt, so the returned error leaves the flag in the state value equals
default and changed equals true. -/
theorem c10_changed_marker_set_before_failed_apply
    (compile : String → Except String Matcher) (kind : DestKind)
    (exprs : List FlagRegexExpr) (cache : RegexCatalog)
    (envirIter : List (String × String))
    (reorder : List (String × String) → List (String × String)) (flag : FlagState)
    (key val msg : String)
    (hk : kind.isScalar = true)
    (hc : (compileEnvVarRegexes compile exprs cache).err = none)
    (hw : winningEnvMatch compile exprs cache envirIter = some (key, val))
    (hp : scalarParse kind val = .error msg) :
    (processEnvVars compile kind exprs cache envirIter reorder flag).flag.changed = true ∧
    (processEnvVars compile kind exprs cache envirIter reorder flag).flag.value =
      flag.value ∧
    (processEnvVars compile kind exprs cache envirIter reorder flag).err =
      some (.invalidEnvValue key val msg) := by
  rw [processEnvVars_scalar compile kind exprs cache envirIter reorder flag hk hc]
  unfold winningEnvMatch at hw
  simp only [scalarEnvLoop_eq, hw, hp]
  refine ⟨?_, ?_, ?_⟩ <;> trivial

/-- Witness for C10 at a concrete input: the failed duration parse leaves the
flag changed marker set while the value stays at the default. -/
theorem c10_changed_marker_set_before_failed_apply_witness :
    (DestKind.durationKind.isScalar = true ∧
     (compileEnvVarRegexes modelCompile [⟨"NELM_D", "$NELM_D"⟩] []).err = none ∧
     winningEnvMatch modelCompile [⟨"NELM_D", "$NELM_D"⟩] [] [("NELM_D", "abc")] =
       some ("NELM_D", "abc") ∧
     scalarParse DestKind.durationKind "abc" = .error "invalid duration") ∧
    ((processEnvVars modelCompile DestKind.durationKind [⟨"NELM_D", "$NELM_D"⟩] []
        [("NELM_D", "abc")] id ⟨FlagValue.dur 3, false, "u"⟩).flag.changed = true ∧
     (processEnvVars modelCompile DestKind.durationKind [⟨"NELM_D", "$NELM_D"⟩] []
        [("NELM_D", "abc")] id ⟨FlagValue.dur 3, false, "u"⟩).flag.value =
      FlagValue.dur 3 ∧
     (processEnvVars modelCompile DestKind.durationKind [⟨"NELM_D", "$NELM_D"⟩] []
        [("NELM_D", "abc")] id ⟨FlagValue.dur 3, false, "u"⟩).err =
      some (.invalidEnvValue "NELM_D" "abc" "invalid duration")) :=
  ⟨⟨by decide, by decide, by decide, by decide⟩,
   c10_changed_marker_set_before_failed_apply modelCompile DestKind.durationKind
     [⟨"NELM_D", "$NELM_D"⟩] [] [("NELM_D", "abc")] id ⟨FlagValue.dur 3, false, "u"⟩
     "NELM_D" "abc" "invalid duration" (by decide) (by decide) (by decide) (by decide)⟩

/-- C1: evaluating the scalar environment resolution at the failing input.
The flag has two patterns, AKEY at declared priority index 0 (the lowest) and
BKEY at index 1 (the highest); the environment holds AKEY=low and BKEY=high
and its map iteration visits AKEY first. The code applies low, the value of
the key belonging to the lowest-priority pattern, and stops — contradicting
the highest-declared-priority contract that both the claim and the source
doc comment on AddFlagOptions state, under which high must win. -/
theorem c1_lowest_priority_pattern_wins_eval :
    (processEnvVars modelCompile DestKind.stringKind
      [⟨"AKEY", "$AKEY"⟩, ⟨"BKEY", "$BKEY"⟩] []
      [("AKEY", "low"), ("BKEY", "high")] id
      ⟨FlagValue.str "default", false, "u"⟩).flag =
    ⟨FlagValue.str "low", true, "u"⟩ := by decide

/-- Replacing a flag state and looking it up only depends on the flags
component of the command state. -/
theorem flagLookup_setFlag_flags_eq (c1 c2 : CmdState) (name : String) (g : FlagState)
    (h : c1.flags = c2.flags) :
    (c1.setFlag name g).flagLookup name = (c2.setFlag name g).flagLookup name := by
  unfold CmdState.setFlag CmdState.flagLookup
  rw [h]

/-- C2, counterexample to the claim as stated: registering a string flag
whose override pattern list holds the malformed pattern text ( makes AddFlag
return an error naming that pattern — but the flag has been registered with
the command framework before pattern compilation runs and is not removed, so
a flag with that name does exist on the command afterwards. -/
theorem c2_flag_registered_despite_pattern_error_cex :
    (AddFlag modelCompile DestKind.stringKind ⟨[], [], [], [], [], [], []⟩ [] "myflag"
      (FlagValue.str "") "help" {} (.ok [⟨"(", "bad"⟩]) [] id).err =
      some (.compileRegex "(" "missing closing )") ∧
    ((AddFlag modelCompile DestKind.stringKind ⟨[], [], [], [], [], [], []⟩ [] "myflag"
      (FlagValue.str "") "help" {} (.ok [⟨"(", "bad"⟩]) [] id).cmd.flagLookup
      "myflag").isSome = true := by
  refine ⟨by decide, by decide⟩

/-- C2 amended: for every flag registration whose pattern list contains a
malformed pattern, AddFlag returns an error naming the offending pattern
text, but the flag stays registered with the external command framework at
its default value with the changed marker unset — registration is not rolled
back on the compile error. -/
theorem c2_amended_pattern_error_reported_flag_kept
    (compile : String → Except String Matcher) (kind : DestKind) (cmd : CmdState)
    (cache : RegexCatalog) (name : String) (defaultValue : FlagValue) (help : String)
    (opts : AddFlagOptions) (exprs : List FlagRegexExpr)
    (envirIter : List (String × String))
    (reorder : List (String × String) → List (String × String)) (p m : String)
    (hc : (compileEnvVarRegexes compile exprs cache).err = some (.compileRegex p m))
    (hnew : cmd.flagLookup name = none) :
    (AddFlag compile kind cmd cache name defaultValue help opts (.ok exprs) envirIter
      reorder).err = some (.compileRegex p m) ∧
    (AddFlag compile kind cmd cache name defaultValue help opts (.ok exprs) envirIter
      reorder).cmd.flagLookup name =
      some ⟨defaultValue, false, buildHelp help exprs⟩ := by
  have hres := processEnvVars_compile_error compile kind exprs cache envirIter reorder
    ⟨defaultValue, false, buildHelp help exprs⟩ (.compileRegex p m) hc
  unfold AddFlag
  simp only [hres]
  refine ⟨by trivial, ?_⟩
  have hflags := applyVisibilityMarks_flags opts
    { cmd with flags := cmd.flags ++ [(name, ⟨defaultValue, false, buildHelp help exprs⟩)] }
    name
  rw [flagLookup_setFlag_flags_eq _
    { cmd with flags := cmd.flags ++ [(name, ⟨defaultValue, false, buildHelp help exprs⟩)] }
    name ⟨defaultValue, false, buildHelp help exprs⟩ hflags]
  exact flagLookup_setFlag_appended cmd name _ _ hnew

/-- Witness for the amended C2 at a concrete input: the malformed override
pattern ( on a fresh command; AddFlag reports the pattern and the flag is
still registered at its default. -/
theorem c2_amended_pattern_error_reported_flag_kept_witness :
    ((compileEnvVarRegexes modelCompile [⟨"(", "bad"⟩] []).err =
      some (.compileRegex "(" "missing closing )") ∧
     (⟨[], [], [], [], [], [], []⟩ : CmdState).flagLookup "myflag" = none) ∧
    ((AddFlag modelCompile DestKind.stringKind ⟨[], [], [], [], [], [], []⟩ [] "myflag"
      (FlagValue.str "") "help" {} (.ok [⟨"(", "bad"⟩]) [] id).err =
      some (.compileRegex "(" "missing closing )") ∧
     (AddFlag modelCompile DestKind.stringKind ⟨[], [], [], [], [], [], []⟩ [] "myflag"
      (FlagValue.str "") "help" {} (.ok [⟨"(", "bad"⟩]) [] id).cmd.flagLookup "myflag" =
      some ⟨FlagValue.str "", false, buildHelp "help" [⟨"(", "bad"⟩]⟩) :=
  ⟨⟨by decide, by decide⟩,
   c2_amended_pattern_error_reported_flag_kept modelCompile DestKind.stringKind
     ⟨[], [], [], [], [], [], []⟩ [] "myflag" (FlagValue.str "") "help" {} [⟨"(", "bad"⟩]
     [] id "(" "missing closing )" (by decide) (by decide)⟩

/-- C3, counterexample to the claim as stated: after a first submission of
the pattern A has stored its matcher in the cache, a second submission of the
same pattern text still performs a compile call (its compile trace again
lists the text), so the pattern is not compiled at most once per distinct
text. -/
theorem c3_second_submission_recompiles_cex :
    (catalogFind (compileEnvVarRegexes modelCompile [⟨"A", "$A"⟩] []).cache
      ⟨"A", "$A"⟩).isSome = true ∧
    (compileEnvVarRegexes modelCompile [⟨"A", "$A"⟩]
      (compileEnvVarRegexes modelCompile [⟨"A", "$A"⟩] []).cache).trace = ["A"] := by
  refine ⟨by decide, by decide⟩

/-- C3 amended: every submission of a pattern list recompiles each pattern
and overwrites its cache entry; because compilation is a pure function of
the pattern text, a second submission of the same list starting from the
cache the first produced succeeds whenever the first did, performs the same
compile calls, and leaves every submitted pattern bound to the same matcher —
so the second use never turns a successful compile into an error. -/
theorem c3_amended_recompile_is_deterministic (compile : String → Except String Matcher)
    (exprs : List FlagRegexExpr) (cache : RegexCatalog)
    (hc : (compileEnvVarRegexes compile exprs cache).err = none) :
    (compileEnvVarRegexes compile exprs
      (compileEnvVarRegexes compile exprs cache).cache).err = none ∧
    (compileEnvVarRegexes compile exprs
      (compileEnvVarRegexes compile exprs cache).cache).trace =
      (compileEnvVarRegexes compile exprs cache).trace ∧
    ∀ e ∈ exprs,
      catalogFind (compileEnvVarRegexes compile exprs
        (compileEnvVarRegexes compile exprs cache).cache).cache e =
      catalogFind (compileEnvVarRegexes compile exprs cache).cache e := by
  have hind := compileEnvVarRegexes_err_trace_indep compile exprs
    (compileEnvVarRegexes compile exprs cache).cache cache
  have herr2 : (compileEnvVarRegexes compile exprs
      (compileEnvVarRegexes compile exprs cache).cache).err = none := by
    rw [hind.1, hc]
  refine ⟨herr2, by rw [hind.2], ?_⟩
  intro e he
  obtain ⟨m1, hm1, hf1⟩ := compileEnvVarRegexes_find compile exprs cache hc e he
  obtain ⟨m2, hm2, hf2⟩ := compileEnvVarRegexes_find compile exprs
    (compileEnvVarRegexes compile exprs cache).cache herr2 e he
  rw [hf2, hf1]
  rw [hm1] at hm2
  injection hm2 with h
  rw [h]

/-- Witness for the amended C3 at a concrete input: submitting the pattern A
twice; the second submission succeeds, traces the same compile call, and
leaves the same matcher bound. -/
theorem c3_amended_recompile_is_deterministic_witness :
    ((compileEnvVarRegexes modelCompile [⟨"A", "$A"⟩] []).err = none) ∧
    ((compileEnvVarRegexes modelCompile [⟨"A", "$A"⟩]
       (compileEnvVarRegexes modelCompile [⟨"A", "$A"⟩] []).cache).err = none ∧
     (compileEnvVarRegexes modelCompile [⟨"A", "$A"⟩]
       (compileEnvVarRegexes modelCompile [⟨"A", "$A"⟩] []).cache).trace =
       (compileEnvVarRegexes modelCompile [⟨"A", "$A"⟩] []).trace ∧
     ∀ e ∈ [(⟨"A", "$A"⟩ : FlagRegexExpr)],
       catalogFind (compileEnvVarRegexes modelCompile [⟨"A", "$A"⟩]
         (compileEnvVarRegexes modelCompile [⟨"A", "$A"⟩] []).cache).cache e =
       catalogFind (compileEnvVarRegexes modelCompile [⟨"A", "$A"⟩] []).cache e) :=
  ⟨by decide,
   c3_amended_recompile_is_deterministic modelCompile [⟨"A", "$A"⟩] [] (by decide)⟩

/-- C7, counterexample to the claim as stated: the same environment snapshot
visited in two different map iteration orders (the two lists are permutations
of each other) makes the scalar resolution produce two different final flag
states, so resolution is not deterministic over a fixed snapshot. -/
theorem c7_iteration_order_changes_result_cex :
    ([("AKEY", "va"), ("BKEY", "vb")] : List (String × String)).Perm
      [("BKEY", "vb"), ("AKEY", "va")] ∧
    ¬ ((processEnvVars modelCompile DestKind.stringKind
        [⟨"AKEY", "$AKEY"⟩, ⟨"BKEY", "$BKEY"⟩] [] [("AKEY", "va"), ("BKEY", "vb")] id
        ⟨FlagValue.str "d", false, "u"⟩).flag =
      (processEnvVars modelCompile DestKind.stringKind
        [⟨"AKEY", "$AKEY"⟩, ⟨"BKEY", "$BKEY"⟩] [] [("BKEY", "vb"), ("AKEY", "va")] id
        ⟨FlagValue.str "d", false, "u"⟩).flag) := by
  refine ⟨by decide, by decide⟩

/-- C7 amended: resolution is a pure function of the snapshot together with
the iteration orders of the environment map and of the candidate map, and
collection candidates are applied in the candidate iteration order (not in
ascending key-name order); what is stable across different candidate
iteration orders of the same snapshot is the multiset of appended values:
for a string-list flag, two runs differing only in candidate order produce
collections that are permutations of each other. -/
theorem c7_amended_collection_contents_stable_up_to_order
    (compile : String → Except String Matcher) (exprs : List FlagRegexExpr)
    (cache : RegexCatalog) (envirIter : List (String × String))
    (reorder1 reorder2 : List (String × String) → List (String × String))
    (xs : List String) (ch : Bool) (us : String)
    (hc : (compileEnvVarRegexes compile exprs cache).err = none)
    (h1 : (reorder1 (resolvedCandidates compile exprs cache envirIter)).Perm
      (resolvedCandidates compile exprs cache envirIter))
    (h2 : (reorder2 (resolvedCandidates compile exprs cache envirIter)).Perm
      (resolvedCandidates compile exprs cache envirIter)) :
    (processEnvVars compile DestKind.stringListKind exprs cache envirIter reorder1
      ⟨.list xs, ch, us⟩).flag.value =
      FlagValue.list
        (xs ++ (reorder1 (resolvedCandidates compile exprs cache envirIter)).map Prod.snd) ∧
    (processEnvVars compile DestKind.stringListKind exprs cache envirIter reorder2
      ⟨.list xs, ch, us⟩).flag.value =
      FlagValue.list
        (xs ++ (reorder2 (resolvedCandidates compile exprs cache envirIter)).map Prod.snd) ∧
    (xs ++ (reorder1 (resolvedCandidates compile exprs cache envirIter)).map Prod.snd).Perm
      (xs ++ (reorder2 (resolvedCandidates compile exprs cache envirIter)).map Prod.snd) := by
  rw [processEnvVars_list compile exprs cache envirIter reorder1 _ hc,
    processEnvVars_list compile exprs cache envirIter reorder2 _ hc]
  simp only [listEnvLoop_ok]
  refine ⟨by trivial, by trivial, ?_⟩
  exact ((h1.map Prod.snd).trans (h2.map Prod.snd).symm).append_left xs

/-- Witness for the amended C7 at a concrete input: the candidate set taken
in given order and in reversed order produces the two expected lists, which
are permutations of each other. -/
theorem c7_amended_collection_contents_stable_up_to_order_witness :
    ((compileEnvVarRegexes modelCompile [⟨"A", "$A"⟩, ⟨"B", "$B"⟩] []).err = none ∧
     (id (resolvedCandidates modelCompile [⟨"A", "$A"⟩, ⟨"B", "$B"⟩] []
        [("A", "1"), ("B", "2")])).Perm
       (resolvedCandidates modelCompile [⟨"A", "$A"⟩, ⟨"B", "$B"⟩] []
        [("A", "1"), ("B", "2")]) ∧
     (List.reverse (resolvedCandidates modelCompile [⟨"A", "$A"⟩, ⟨"B", "$B"⟩] []
        [("A", "1"), ("B", "2")])).Perm
       (resolvedCandidates modelCompile [⟨"A", "$A"⟩, ⟨"B", "$B"⟩] []
        [("A", "1"), ("B", "2")])) ∧
    ((processEnvVars modelCompile DestKind.stringListKind [⟨"A", "$A"⟩, ⟨"B", "$B"⟩] []
       [("A", "1"), ("B", "2")] id ⟨FlagValue.list [], false, "u"⟩).flag.value =
       FlagValue.list
         ([] ++ (id (resolvedCandidates modelCompile [⟨"A", "$A"⟩, ⟨"B", "$B"⟩] []
           [("A", "1"), ("B", "2")])).map Prod.snd) ∧
     (processEnvVars modelCompile DestKind.stringListKind [⟨"A", "$A"⟩, ⟨"B", "$B"⟩] []
       [("A", "1"), ("B", "2")] List.reverse ⟨FlagValue.list [], false, "u"⟩).flag.value =
       FlagValue.list
         ([] ++ (List.reverse (resolvedCandidates modelCompile [⟨"A", "$A"⟩, ⟨"B", "$B"⟩] []
           [("A", "1"), ("B", "2")])).map Prod.snd) ∧
     ([] ++ (id (resolvedCandidates modelCompile [⟨"A", "$A"⟩, ⟨"B", "$B"⟩] []
        [("A", "1"), ("B", "2")])).map Prod.snd).Perm
       ([] ++ (List.reverse (resolvedCandidates modelCompile [⟨"A", "$A"⟩, ⟨"B", "$B"⟩] []
        [("A", "1"), ("B", "2")])).map Prod.snd)) :=
  ⟨⟨by decide, by decide, by decide⟩,
   c7_amended_collection_contents_stable_up_to_order modelCompile
     [⟨"A", "$A"⟩, ⟨"B", "$B"⟩] [] [("A", "1"), ("B", "2")] id List.reverse [] false "u"
     (by decide) (by decide) (by decide)⟩

/-- An annotation write leaves the registered flags untouched, so flag
lookups read through it. -/
theorem flagLookup_annots_update (cmd : CmdState) (a : List (String × String × List String))
    (name : String) :
    ({ cmd with annots := a } : CmdState).flagLookup name = cmd.flagLookup name := rfl

/-- C9, counterexample to the claim as stated: attaching a group whose id is
the empty string to a registered flag stores the metadata anyway — the id
annotation with an empty value is written and no error is returned, so the
empty-id group is not rejected. -/
theorem c9_empty_group_id_still_stored_cex :
    (saveFlagGroupMetadata ⟨[("f", ⟨FlagValue.str "", false, "u"⟩)], [], [], [], [], [], []⟩
      "f" ⟨"", "T", 5⟩).2 = none ∧
    ((saveFlagGroupMetadata ⟨[("f", ⟨FlagValue.str "", false, "u"⟩)], [], [], [], [], [], []⟩
      "f" ⟨"", "T", 5⟩).1.annots.contains ("f", FlagGroupIDAnnotationName, [""])) = true := by
  refine ⟨by decide, by decide⟩

/-- C9 amended: attaching group metadata performs no validation of the group
id at all: for every group, empty id included, the attach operation stores
the id, title and priority annotations on a registered flag and returns no
error; its only failure mode is propagating the annotation-write errors of
the external framework (which fails exactly when the flag is unknown). -/
theorem c9_amended_attach_stores_unconditionally (cmd : CmdState) (flagName : String)
    (g : FlagGroup) (hreg : (cmd.flagLookup flagName).isSome = true) :
    (saveFlagGroupMetadata cmd flagName g).2 = none ∧
    (saveFlagGroupMetadata cmd flagName g).1.annots =
      cmd.annots ++ [(flagName, FlagGroupIDAnnotationName, [g.ID]),
        (flagName, FlagGroupTitleAnnotationName, [g.Title]),
        (flagName, FlagGroupPriorityAnnotationName, [toString g.Priority])] := by
  obtain ⟨f, hf⟩ := Option.isSome_iff_exists.mp hreg
  unfold saveFlagGroupMetadata setAnnotationValues
  simp only [flagLookup_annots_update, hf]
  exact ⟨by trivial, by simp⟩

/-- Witness for the amended C9 at a concrete input: a group with a non-empty
id on a registered flag; all three annotations are stored and no error is
returned. -/
theorem c9_amended_attach_stores_unconditionally_witness :
    ((⟨[("f", ⟨FlagValue.str "", false, "u"⟩)], [], [], [], [], [], []⟩ : CmdState).flagLookup
      "f").isSome = true ∧
    ((saveFlagGroupMetadata ⟨[("f", ⟨FlagValue.str "", false, "u"⟩)], [], [], [], [], [], []⟩
       "f" ⟨"gid", "Title", 7⟩).2 = none ∧
     (saveFlagGroupMetadata ⟨[("f", ⟨FlagValue.str "", false, "u"⟩)], [], [], [], [], [], []⟩
       "f" ⟨"gid", "Title", 7⟩).1.annots =
       [] ++ [("f", FlagGroupIDAnnotationName, ["gid"]),
         ("f", FlagGroupTitleAnnotationName, ["Title"]),
         ("f", FlagGroupPriorityAnnotationName, [toString (7 : Int)])]) :=
  ⟨by decide,
   c9_amended_attach_stores_unconditionally
     ⟨[("f", ⟨FlagValue.str "", false, "u"⟩)], [], [], [], [], [], []⟩ "f"
     ⟨"gid", "Title", 7⟩ (by decide)⟩
